import Mathlib

/-!
Shallow embedding, in Lean 4, of the core of the Archestra2FastMCP backend:
the security guardrails (redaction and access control), the sliding-window
rate limiter, the MCP tool registry invocation pipeline, the execution
tracer, and the orchestrator runtime.  Each definition is translated from
the TypeScript source; JavaScript-specific behaviour (truthiness, the
semantics of Map.set, the synchronous exception propagation of
EventEmitter.emit) is modelled explicitly where the source relies on it.
-/

/-- Behaviour of the JavaScript test for a falsy string: only the empty
string is falsy. -/
def jsFalsyString (s : String) : Bool := s = ""

/-- Behaviour of the JavaScript logical-not applied to an array value: an
array object is always truthy, so the test never fires, whatever the
array holds (in particular for the empty array). -/
def jsFalsyArray {α : Type} (_ : List α) : Bool := false

/-- JavaScript Map.set semantics on an association list: an existing key
keeps its position and gets the new value, a new key is appended. -/
def mapSet {α : Type} (m : List (String × α)) (k : String) (v : α) :
    List (String × α) :=
  if (m.lookup k).isSome then
    m.map (fun kv => if kv.1 == k then (k, v) else kv)
  else
    m ++ [(k, v)]

/-- Lowercase a string (String.prototype.toLowerCase on ASCII data). -/
def lowerStr (s : String) : List Char := s.data.map Char.toLower

/-- Containment of a character list as a contiguous run of another. -/
def listHasRun (needle : List Char) : List Char → Bool
  | [] => needle.isEmpty
  | c :: tl => needle.isPrefixOf (c :: tl) || listHasRun needle tl

/-- String.prototype.includes: the needle occurs as a contiguous substring
of the haystack. -/
def strContains (hay needle : String) : Bool := listHasRun needle.data hay.data

/-- Sensitive key names from SecurityGuardrails.isSensitiveKey. -/
def sensitiveKeys : List String :=
  ["password", "secret", "api_key", "apikey", "token",
   "api-key", "auth", "credential", "private_key"]

/-- SecurityGuardrails.isSensitiveKey: the lowercased key contains one of
the sensitive names as a substring. -/
def isSensitiveKey (key : String) : Bool :=
  sensitiveKeys.any (fun sk => listHasRun sk.data (lowerStr key))

/-- SecurityGuardrails.redactSecret: values of length at most 8 collapse
to the fixed mask, longer values keep the first 4 and last 4 characters. -/
def redactSecret (v : String) : String :=
  if v.length ≤ 8 then "***"
  else ⟨v.data.take 4 ++ "...".data ++ v.data.drop (v.data.length - 4)⟩

/-- Character class [0-9A-Z] of the AWS-key pattern. -/
def isAwsChar (c : Char) : Bool :=
  ('0' ≤ c && c ≤ '9') || ('A' ≤ c && c ≤ 'Z')

/-- Character class [A-Za-z0-9+/=] of the generic-secret pattern. -/
def isB64Char (c : Char) : Bool :=
  ('0' ≤ c && c ≤ '9') || ('A' ≤ c && c ≤ 'Z') || ('a' ≤ c && c ≤ 'z') ||
    c = '+' || c = '/' || c = '='

/-- Test whether the regular expression AKIA[0-9A-Z]\x7b16\x7d matches at
the start of the character list: the four literal characters followed by
at least 16 characters of the class. -/
def awsMatchAt (l : List Char) : Bool :=
  decide (l.take 4 = "AKIA".data) &&
    decide (((l.drop 4).take 16).length = 16) &&
    ((l.drop 4).take 16).all isAwsChar

/-- Fuel-indexed worker for the AWS-key replacement pass (the fuel only
serves Lean termination; a fuel of at least the list length is always
enough because every step consumes at least one character). -/
def awsRedactF : Nat → List Char → List Char
  | 0, l => l
  | _ + 1, [] => []
  | fuel + 1, c :: cs =>
    if awsMatchAt (c :: cs) then
      "AKIA...REDACTED".data ++ awsRedactF fuel ((c :: cs).drop 20)
    else
      c :: awsRedactF fuel cs

/-- First replacement pass of SecurityGuardrails.redactPatternsInString:
every match of AKIA[0-9A-Z]\x7b16\x7d is replaced, scanning left to right
without overlap, exactly as String.prototype.replace with a global
regular expression does. -/
def awsRedact (l : List Char) : List Char := awsRedactF l.length l

/-- Multiset of per-character occurrence counts of the list (the values of
the charCounts map built by SecurityGuardrails.hasHighEntropy). -/
def charCounts (l : List Char) : List Nat :=
  l.dedup.map (fun c => l.count c)

/-- SecurityGuardrails.hasHighEntropy: the Shannon entropy of the character
distribution exceeds 4 bits per character.  The source compares floating
point values; here the comparison entropy > 4 is stated in its exact
integer form, obtained by exponentiating both sides:
entropy = log2 (n ^ n / prod c_i ^ c_i) / n, so entropy > 4 holds exactly
when n ^ n > 2 ^ (4 * n) * prod c_i ^ c_i.  All inputs used in this file
are far from the threshold, where the float and exact comparisons agree. -/
def hasHighEntropy (l : List Char) : Bool :=
  let n := l.length
  decide (n ^ n > 2 ^ (4 * n) * (charCounts l).foldr (fun k acc => k ^ k * acc) 1)

/-- Replacement callback of the generic-secret pass applied to one maximal
run of [A-Za-z0-9+/=] characters: a run of length at least 32 with high
entropy keeps its first 4 characters and is otherwise redacted. -/
def entropyRedactRun (run : List Char) : List Char :=
  if 32 ≤ run.length && hasHighEntropy run then
    run.take 4 ++ "...REDACTED".data
  else run

/-- Fuel-indexed worker for the generic-secret replacement pass; a fuel of
at least the list length is always enough. -/
def entropyRedactF : Nat → List Char → List Char
  | 0, l => l
  | _ + 1, [] => []
  | fuel + 1, c :: cs =>
    if isB64Char c then
      entropyRedactRun ((c :: cs).takeWhile isB64Char) ++
        entropyRedactF fuel ((c :: cs).dropWhile isB64Char)
    else
      c :: entropyRedactF fuel cs

/-- Second replacement pass of SecurityGuardrails.redactPatternsInString:
the matches of the greedy global pattern [A-Za-z0-9+/=]\x7b32,\x7d are
exactly the maximal runs of class characters of length at least 32; each
match goes through the entropy callback. -/
def entropyRedact (l : List Char) : List Char := entropyRedactF l.length l

/-- SecurityGuardrails.redactPatternsInString: AWS-key pass followed by the
high-entropy generic-secret pass. -/
def redactPatternsInString (s : String) : String :=
  ⟨entropyRedact (awsRedact s.data)⟩

mutual
/-- JSON-like values moved between the registry, the guardrails and the
tracer (any in the TypeScript source).  Arrays and objects carry their own
list types so that all recursion over values is structural. -/
inductive Json where
  | str (s : String)
  | num (n : Int)
  | boolean (b : Bool)
  | null
  | arr (elems : JsonList)
  | obj (fields : JsonFields)
deriving DecidableEq, Repr
inductive JsonList where
  | nil
  | cons (hd : Json) (tl : JsonList)
deriving DecidableEq, Repr
inductive JsonFields where
  | nil
  | cons (key : String) (val : Json) (tl : JsonFields)
deriving DecidableEq, Repr
end

/-- Build a JSON array from a Lean list of values. -/
def jarr : List Json → Json := fun l => Json.arr (go l) where
  go : List Json → JsonList
    | [] => JsonList.nil
    | v :: tl => JsonList.cons v (go tl)

/-- Build a JSON object from a Lean list of key-value pairs. -/
def jfields : List (String × Json) → JsonFields
  | [] => JsonFields.nil
  | (k, v) :: tl => JsonFields.cons k v (jfields tl)

/-- Build a JSON object from a Lean list of key-value pairs. -/
def jobj (l : List (String × Json)) : Json := Json.obj (jfields l)

/-- View a JSON field list as a Lean association list. -/
def JsonFields.toList : JsonFields → List (String × Json)
  | JsonFields.nil => []
  | JsonFields.cons k v tl => (k, v) :: JsonFields.toList tl

/-- View a JSON array body as a Lean list. -/
def JsonList.toList : JsonList → List Json
  | JsonList.nil => []
  | JsonList.cons v tl => v :: JsonList.toList tl

/-- JavaScript truthiness of a JSON value. -/
def jsTruthy : Json → Bool
  | Json.null => false
  | Json.boolean b => b
  | Json.num n => n ≠ 0
  | Json.str s => s ≠ ""
  | Json.arr _ => true
  | Json.obj _ => true

/-- Lookup of a key in a JSON field list (first match, like property
access on an object built from these fields). -/
def JsonFields.get : JsonFields → String → Option Json
  | JsonFields.nil, _ => none
  | JsonFields.cons k v tl, key => if k = key then some v else tl.get key

/-- Property access obj.key on a JSON object: a missing key (or access on
a non-object) reads as undefined, modelled by null (both are falsy). -/
def jGet (v : Json) (key : String) : Json :=
  match v with
  | Json.obj fields => (fields.get key).getD Json.null
  | _ => Json.null

mutual
/-- Recursive walk of SecurityGuardrails.filterObjectRecursive, the
in-place mutation performed by filterSensitiveData on the deep copy.  A
string field whose key is sensitive is first truncated by redactSecret;
every string field then goes through redactPatternsInString; nested
objects and arrays (both of typeof object) recurse; for an array the
iteration keys of the for-in loop are the decimal element indices, which
never contain a sensitive name.  Numbers, booleans and null are left
untouched. -/
def filterValue : String → Json → Json
  | key, Json.str s =>
    Json.str (redactPatternsInString (if isSensitiveKey key then redactSecret s else s))
  | _, Json.num n => Json.num n
  | _, Json.boolean b => Json.boolean b
  | _, Json.null => Json.null
  | _, Json.arr elems => Json.arr (filterElems 0 elems)
  | _, Json.obj fields => Json.obj (filterFields fields)
def filterElems : Nat → JsonList → JsonList
  | _, JsonList.nil => JsonList.nil
  | i, JsonList.cons v tl => JsonList.cons (filterValue (toString i) v) (filterElems (i + 1) tl)
def filterFields : JsonFields → JsonFields
  | JsonFields.nil => JsonFields.nil
  | JsonFields.cons k v tl => JsonFields.cons k (filterValue k v) (filterFields tl)
end

/-- SecurityGuardrails.filterSensitiveData: non-objects pass through; an
object or array is deep-copied and recursively filtered in place. -/
def filterSensitiveData (data : Json) : Json :=
  match data with
  | Json.obj fields => Json.obj (filterFields fields)
  | Json.arr elems => Json.arr (filterElems 0 elems)
  | other => other

/-- Thrown JavaScript errors: a message plus the optional code property
that axios network errors carry and plain Error objects lack. -/
structure JsError where
  code : Option String
  message : String
deriving DecidableEq, Repr

/-- Access control matrix hard-coded in the SecurityGuardrails
constructor: agent id to the tool ids it may invoke. -/
def accessControl : List (String × List String) :=
  [("planner-agent", ["git-api", "metrics-analyzer"]),
   ("security-agent", ["code-analysis", "security-db", "git-api"]),
   ("quality-agent", ["code-analysis", "git-api", "metrics-analyzer"]),
   ("validator-agent", ["security-db", "llm-inference"]),
   ("prioritizer-agent", ["metrics-analyzer", "compliance-engine", "llm-inference"]),
   ("explainer-agent", ["security-db", "llm-inference"]),
   ("ui-composer-agent", ["llm-inference"])]

/-- SecurityGuardrails.validateAgentAccess: an unknown agent is denied;
otherwise the tool id must be listed for the agent. -/
def validateAgentAccess (agentId toolId : String) : Bool :=
  match accessControl.lookup agentId with
  | none => false
  | some allowedTools => allowedTools.contains toolId

/-- Removal of null bytes and control characters ([\x00-\x1F\x7F]) from a
string, as the sanitizer does to every top-level string field. -/
def stripControlChars (s : String) : String :=
  ⟨s.data.filter (fun c => !(c.toNat ≤ 0x1F || c.toNat = 0x7F))⟩

/-- SecurityGuardrails.sanitizeToolInput on an object: the value of
repo_path falling back to file_path (JavaScript or-chain), when truthy
and a string, must contain neither a dot-dot sequence nor a tilde; every
string element of a files array must avoid dot-dot; then control
characters are stripped from every top-level string field.  Non-object
parameters pass through unchanged.  (A truthy non-string path and array
parameters at top level would crash or be object-spread in JavaScript;
neither shape occurs in this embedding.) -/
def sanitizeToolInput (params : Json) : Except JsError Json :=
  match params with
  | Json.obj fields =>
    let pathVal := if jsTruthy (jGet params "repo_path") then jGet params "repo_path"
                   else jGet params "file_path"
    if jsTruthy pathVal &&
        (match pathVal with
         | Json.str p => strContains p ".." || strContains p "~"
         | _ => false) then
      Except.error { code := none, message := "Path traversal detected" }
    else
      match jGet params "files" with
      | Json.arr fs =>
        if (fs.toList.any (fun f => match f with
            | Json.str s => strContains s ".."
            | _ => false)) then
          Except.error { code := none, message := "Path traversal detected in file list" }
        else
          Except.ok (Json.obj (jfields (fields.toList.map (fun kv =>
            match kv.2 with
            | Json.str s => (kv.1, Json.str (stripControlChars s))
            | v => (kv.1, v)))))
      | _ =>
        Except.ok (Json.obj (jfields (fields.toList.map (fun kv =>
          match kv.2 with
          | Json.str s => (kv.1, Json.str (stripControlChars s))
          | v => (kv.1, v)))))
  | other => Except.ok other

/-- Rate limit configuration carried by every tool definition. -/
structure RateLimits where
  requestsPerMinute : Nat
  maxConcurrentRequests : Nat
deriving DecidableEq, Repr

/-- State of one RateLimitTracker: its configuration and the per-key
(session id) lists of recorded request timestamps, in milliseconds. -/
structure RateLimitTracker where
  config : RateLimits
  requestCounts : List (String × List Int)
deriving DecidableEq, Repr

/-- RateLimitTracker.allowRequest at wall-clock instant now: the stored
timestamps of the key are pruned to the trailing 60000 ms window (strict
comparison, exactly ts > now - 60000); when the pruned count has reached
requestsPerMinute the request is rejected and the stored state is left
untouched; otherwise the current instant is appended to the pruned
window and stored, and the request is admitted. -/
def RateLimitTracker.allowRequest (t : RateLimitTracker) (key : String) (now : Int) :
    Bool × RateLimitTracker :=
  let timestamps := (t.requestCounts.lookup key).getD []
  let recent := timestamps.filter (fun ts => ts > now - 60000)
  if recent.length ≥ t.config.requestsPerMinute then
    (false, t)
  else
    (true, { t with requestCounts := mapSet t.requestCounts key (recent ++ [now]) })

/-- Sequence of allowRequest calls for one key at the given instants,
returning the list of admission decisions and the final tracker state. -/
def runRequests (t : RateLimitTracker) (key : String) : List Int → List Bool × RateLimitTracker
  | [] => ([], t)
  | now :: rest =>
    let (b, t1) := t.allowRequest key now
    let (bs, t2) := runRequests t1 key rest
    (b :: bs, t2)

/-- Escape of one character inside a JSON string literal (quote and
backslash; other characters of the payloads used here are literal). -/
def escapeJsonChar (c : Char) : List Char :=
  if c = '"' then ['\\', '"']
  else if c = '\\' then ['\\', '\\']
  else [c]

/-- Escape of a character list inside a JSON string literal. -/
def escapeStr (l : List Char) : List Char :=
  l.foldr (fun c acc => escapeJsonChar c ++ acc) []

mutual
/-- Rendering of JSON.stringify without spacing, used only for its length
in the size guard of ExecutionTracer.sanitizeForLogging. -/
def jsonStrV : Json → List Char
  | Json.str s => '"' :: escapeStr s.data ++ ['"']
  | Json.num n => (toString n).data
  | Json.boolean b => (if b then "true" else "false").data
  | Json.null => "null".data
  | Json.arr elems => '[' :: jsonStrElems elems ++ [']']
  | Json.obj fields => '\x7b' :: jsonStrFields fields ++ ['\x7d']
def jsonStrElems : JsonList → List Char
  | JsonList.nil => []
  | JsonList.cons v JsonList.nil => jsonStrV v
  | JsonList.cons v tl => jsonStrV v ++ ',' :: jsonStrElems tl
def jsonStrFields : JsonFields → List Char
  | JsonFields.nil => []
  | JsonFields.cons k v JsonFields.nil => '"' :: escapeStr k.data ++ '"' :: ':' :: jsonStrV v
  | JsonFields.cons k v tl =>
    ('"' :: escapeStr k.data ++ '"' :: ':' :: jsonStrV v) ++ ',' :: jsonStrFields tl
end

/-- ExecutionTracer.sanitizeForLogging: a payload whose serialization
exceeds 1000 characters is replaced by a size marker string; undefined
and null pass through (undefined is the absent case of the Option at the
call sites). -/
def sanitizeForLogging (data : Json) : Json :=
  let n := (jsonStrV data).length
  if n > 1000 then Json.str ("[Large object: " ++ toString n ++ " bytes]")
  else data

/-- One recorded trace entry (interface TraceEntry of the source). -/
structure TraceEntry where
  traceId : String
  spanId : String
  parentSpanId : Option String
  timestamp : Int
  duration : Option Int
  component : String
  componentId : String
  action : String
  input : Option Json
  output : Option Json
  error : Option String
  tags : List (String × String)
deriving DecidableEq, Repr

/-- Arguments of ExecutionTracer.startSpan (interface StartSpanParams). -/
structure StartSpanParams where
  component : String
  componentId : String
  action : String
  parentSpanId : Option String
  input : Option Json
  tags : List (String × String)
deriving DecidableEq, Repr

/-- State of the ExecutionTracer: finished spans per trace id, the
in-flight spans, and a counter feeding generateSpanId.  The source draws
span ids from the clock and a random suffix; the counter keeps them
unique and, like the originals, shaped span-... so that a span id never
collides with a session id. -/
structure TracerState where
  traces : List (String × List TraceEntry)
  activeSpans : List (String × TraceEntry)
  nextSpanId : Nat
deriving DecidableEq, Repr

/-- Tracer with no recorded state. -/
def tracer0 : TracerState := { traces := [], activeSpans := [], nextSpanId := 0 }

/-- ExecutionTracer.generateSpanId modulo the randomness of the source:
a fresh identifier with the span- prefix. -/
def generateSpanId (n : Nat) : String := "span-" ++ toString n

/-- ExecutionTracer.startTrace: registers an empty span list for the trace
id unless one already exists. -/
def startTrace (st : TracerState) (traceId : String) : TracerState :=
  if (st.traces.lookup traceId).isSome then st
  else { st with traces := mapSet st.traces traceId [] }

/-- ExecutionTracer.startSpan: allocates a span id, derives the trace id
as parentSpanId falling back to the span id itself (JavaScript or), files
the entry among the active spans, makes sure the trace exists, and
returns the span id. -/
def startSpan (st : TracerState) (p : StartSpanParams) (now : Int) : String × TracerState :=
  let spanId := generateSpanId st.nextSpanId
  let traceId := match p.parentSpanId with
    | some pid => if pid = "" then spanId else pid
    | none => spanId
  let entry : TraceEntry :=
    { traceId := traceId, spanId := spanId, parentSpanId := p.parentSpanId,
      timestamp := now, duration := none,
      component := p.component, componentId := p.componentId, action := p.action,
      input := p.input.map sanitizeForLogging, output := none, error := none,
      tags := p.tags }
  let st1 := { st with activeSpans := mapSet st.activeSpans spanId entry,
                       nextSpanId := st.nextSpanId + 1 }
  (spanId, startTrace st1 traceId)

/-- ExecutionTracer.endSpan: an unknown span id is a logged no-op; else
the duration is the supplied one unless it is absent or 0 (JavaScript or
treats 0 as falsy), the output is sanitized when truthy and dropped
otherwise, the finalized copy is appended to its trace when the trace
exists, and the in-flight handle is removed. -/
def endSpan (st : TracerState) (spanId : String)
    (output : Option Json) (error : Option String) (duration : Option Int)
    (now : Int) : TracerState :=
  match st.activeSpans.lookup spanId with
  | none => st
  | some span =>
    let d := match duration with
      | some d => if d = 0 then now - span.timestamp else d
      | none => now - span.timestamp
    let outputV := match output with
      | some o => if jsTruthy o then some (sanitizeForLogging o) else none
      | none => none
    let span1 := { span with duration := some d, output := outputV, error := error }
    let traces1 := match st.traces.lookup span.traceId with
      | some entries => mapSet st.traces span.traceId (entries ++ [span1])
      | none => st.traces
    { st with traces := traces1,
              activeSpans := st.activeSpans.filter (fun kv => kv.1 ≠ spanId) }

/-- ExecutionTracer.getTrace: the recorded spans of a trace, empty when
the trace id is unknown. -/
def getTrace (st : TracerState) (traceId : String) : List TraceEntry :=
  (st.traces.lookup traceId).getD []

/-- Optional authentication descriptor of a tool definition. -/
structure MCPAuth where
  kind : String
  header : Option String
  token : Option String
deriving DecidableEq, Repr

/-- MCP tool definition (interface MCPToolDefinition of the source). -/
structure MCPToolDefinition where
  id : String
  name : String
  endpoint : String
  capabilities : List String
  healthCheck : String
  authentication : Option MCPAuth
  rateLimits : RateLimits
deriving DecidableEq, Repr

/-- State of the MCPRegistry: the tool table and the per-tool rate limit
trackers, both JavaScript Maps. -/
structure RegistryState where
  tools : List (String × MCPToolDefinition)
  rateLimitTrackers : List (String × RateLimitTracker)
deriving DecidableEq, Repr

/-- Registry with no tools. -/
def registry0 : RegistryState := { tools := [], rateLimitTrackers := [] }

/-- MCPRegistry.register: throws when the id or the endpoint is falsy or
when the capabilities value is falsy — the latter via the JavaScript
logical-not of an array, which never holds, so an empty capability array
passes; otherwise the definition is stored (overwriting any previous one)
and a fresh rate limit tracker is allocated for the tool id. -/
def register (st : RegistryState) (tool : MCPToolDefinition) :
    Except JsError RegistryState :=
  if jsFalsyString tool.id || jsFalsyString tool.endpoint ||
      jsFalsyArray tool.capabilities then
    Except.error { code := none, message := "Invalid tool definition" }
  else
    Except.ok
      { tools := mapSet st.tools tool.id tool,
        rateLimitTrackers := mapSet st.rateLimitTrackers tool.id
          { config := tool.rateLimits, requestCounts := [] } }

/-- MCPRegistry.findByCapability: the registered definitions listing the
capability, in table order. -/
def findByCapability (st : RegistryState) (capability : String) : List MCPToolDefinition :=
  (st.tools.map (fun kv => kv.2)).filter (fun tool => tool.capabilities.contains capability)

/-- MCPRegistry.getTool. -/
def getTool (st : RegistryState) (toolId : String) : Option MCPToolDefinition :=
  st.tools.lookup toolId

/-- MCPRegistry.isRetryableError: only a thrown error whose code property
is one of the listed transient codes is retryable; a plain Error object
has no code property, so it is never retryable. -/
def isRetryableError (e : JsError) : Bool :=
  match e.code with
  | some c => ["ECONNREFUSED", "ETIMEDOUT", "RATE_LIMIT_EXCEEDED"].contains c
  | none => false

/-- Security context of an invocation request. -/
structure SecurityContext where
  agentId : String
  sessionId : String
deriving DecidableEq, Repr

/-- Invocation request (interface ToolInvocationRequest). -/
structure ToolInvocationRequest where
  toolId : String
  method : String
  params : Json
  securityContext : SecurityContext
deriving DecidableEq, Repr

/-- Error envelope of a failed invocation. -/
structure InvocationError where
  code : String
  message : String
  retryable : Bool
deriving DecidableEq, Repr

/-- Metadata attached to every invocation result. -/
structure InvocationMetadata where
  duration_ms : Int
  tool_id : String
  method : String
deriving DecidableEq, Repr

/-- Structured result of MCPRegistry.invokeTool: the registry never
throws past this boundary. -/
structure ToolInvocationResult where
  success : Bool
  data : Option Json
  error : Option InvocationError
  metadata : InvocationMetadata
deriving DecidableEq, Repr

/-- Conversion of a caught error into the non-success result of the
invocation pipeline: the code property falls back over JavaScript or to
TOOL_INVOCATION_ERROR, and retryability is decided by the code property
of the thrown error alone. -/
def errorResult (e : JsError) (dur : Int) (toolId method : String) : ToolInvocationResult :=
  { success := false,
    data := none,
    error := some
      { code := match e.code with
          | some c => if c = "" then "TOOL_INVOCATION_ERROR" else c
          | none => "TOOL_INVOCATION_ERROR",
        message := e.message,
        retryable := isRetryableError e },
    metadata := { duration_ms := dur, tool_id := toolId, method := method } }

/-- MCPRegistry.invokeTool.  The wall clock is abstracted by the start
instant now and the completion instant tEnd; the HTTP round trip of
callToolAPI is abstracted by callOutcome, the response body or the
thrown (axios) error.  The pipeline: one tool-kind span is started with
the session id passed as parentSpanId, then lookup, policy check against
the access matrix, sliding-window rate check keyed by session id, input
sanitization, the external call, and output filtering; every thrown
error is caught, recorded on the span, and converted into a non-success
result. -/
def invokeTool (reg : RegistryState) (tr : TracerState) (req : ToolInvocationRequest)
    (now tEnd : Int) (callOutcome : Except JsError Json) :
    ToolInvocationResult × RegistryState × TracerState :=
  let startRes := startSpan tr
    { component := "mcp-tool", componentId := req.toolId, action := req.method,
      parentSpanId := some req.securityContext.sessionId,
      input := some req.params, tags := [] } now
  let spanId := startRes.1
  let tr1 := startRes.2
  let finishErr := fun (e : JsError) (reg1 : RegistryState) =>
    (errorResult e (tEnd - now) req.toolId req.method, reg1,
     endSpan tr1 spanId none (some e.message) (some (tEnd - now)) tEnd)
  match getTool reg req.toolId with
  | none =>
    finishErr { code := none, message := "Tool " ++ req.toolId ++ " not found in registry" } reg
  | some tool =>
    if !validateAgentAccess req.securityContext.agentId req.toolId then
      finishErr { code := none,
                  message := "Agent " ++ req.securityContext.agentId ++
                    " not authorized to access " ++ req.toolId } reg
    else
      let tracker := (reg.rateLimitTrackers.lookup req.toolId).getD
        { config := tool.rateLimits, requestCounts := [] }
      let rateRes := tracker.allowRequest req.securityContext.sessionId now
      let reg1 := { reg with
        rateLimitTrackers := mapSet reg.rateLimitTrackers req.toolId rateRes.2 }
      if !rateRes.1 then
        finishErr { code := none, message := "Rate limit exceeded for " ++ req.toolId } reg1
      else
        match sanitizeToolInput req.params with
        | Except.error e => finishErr e reg1
        | Except.ok _sanitizedParams =>
          match callOutcome with
          | Except.error e => finishErr e reg1
          | Except.ok response =>
            let filteredOutput := filterSensitiveData response
            let duration := tEnd - now
            let tr2 := endSpan tr1 spanId (some filteredOutput) none (some duration) tEnd
            ({ success := true, data := some filteredOutput, error := none,
               metadata := { duration_ms := duration, tool_id := req.toolId,
                             method := req.method } }, reg1, tr2)

/-- Session status (AuditSession.status of the source). -/
inductive SessionStatus where
  | planning
  | running
  | completed
  | failed
deriving DecidableEq, Repr

/-- Audit session record (interface AuditSession). -/
structure AuditSession where
  id : String
  status : SessionStatus
  startedAt : Int
  completedAt : Option Int
  results : Option Json
  error : Option String
deriving DecidableEq, Repr

/-- Audit options (AuditRequest.options). -/
structure AuditOptions where
  frameworks : Option (List String)
  priority : Option String
deriving DecidableEq, Repr

/-- Audit request (interface AuditRequest). -/
structure AuditRequest where
  repoPath : String
  userId : Option String
  options : Option AuditOptions
deriving DecidableEq, Repr

/-- JSON image of the raw options value, as the prioritizer receives it
for businessContext (undefined reads as null). -/
def jsonOfOptions : Option AuditOptions → Json
  | none => Json.null
  | some o =>
    jobj ((match o.frameworks with
           | some fs => [("frameworks", jarr (fs.map Json.str))]
           | none => []) ++
          (match o.priority with
           | some p => [("priority", Json.str p)]
           | none => []))

/-- The behaviour of one registered agent, as the orchestrator sees it:
BaseAgent.execute for a stage input either resolves to a result value or
rejects with an error.  The concrete analysis logic inside the agents is
outside the core. -/
def AgentTable : Type := List (String × (Json → Except JsError Json))

/-- A lifecycle subscriber as EventEmitter.emit reaches it: invoked
synchronously with the event name; a throwing subscriber makes emit
itself throw into the caller.  Payloads are beyond the model. -/
def Subscriber : Type := String → Except JsError Unit

/-- Spread of an object with extra fields appended (the compliance input
is built as an object spread of the plan plus a frameworks field). -/
def jSpread (base : Json) (extra : List (String × Json)) : Json :=
  match base with
  | Json.obj fields => jobj (fields.toList ++ extra)
  | _ => jobj extra

/-- Array.prototype.slice(0, 10) on a JSON array value. -/
def jSlice10 (v : Json) : Json :=
  match v with
  | Json.arr elems => jarr (elems.toList.take 10)
  | other => other

/-- The severity read from a finding: finding.severity with JavaScript or
fallback to finding.original_severity. -/
def findingSeverity (f : Json) : Json :=
  let s := jGet f "severity"
  if jsTruthy s then s else jGet f "original_severity"

/-- OrchestratorRuntime.calculateSummary: severity counts over the
prioritized findings plus the total, in the key order of the source. -/
def calculateSummary (findings : List Json) : Json :=
  jobj
    [("critical", Json.num (findings.countP (fun f => findingSeverity f = Json.str "critical"))),
     ("high", Json.num (findings.countP (fun f => findingSeverity f = Json.str "high"))),
     ("medium", Json.num (findings.countP (fun f => findingSeverity f = Json.str "medium"))),
     ("low", Json.num (findings.countP (fun f => findingSeverity f = Json.str "low"))),
     ("totalFindings", Json.num findings.length)]

/-- View of a JSON value as the list of elements of an array (the forEach
of calculateSummary is only ever reached with an array). -/
def jElems (v : Json) : List Json :=
  match v with
  | Json.arr elems => elems.toList
  | _ => []

/-- OrchestratorRuntime.runAgent: unknown agent throws; otherwise
agent:started is emitted, the agent executes, and agent:completed or
agent:failed is emitted before returning or rethrowing.  Every emit is
the synchronous EventEmitter call, so a throwing subscriber throws here. -/
def runAgent (agents : AgentTable) (sub : Subscriber) (agentId : String)
    (input : Json) : Except JsError Json := do
  match agents.lookup agentId with
  | none => Except.error { code := none, message := "Agent " ++ agentId ++ " not found" }
  | some agent => do
    let _ ← sub "agent:started"
    match agent input with
    | Except.ok result => do
      let _ ← sub "agent:completed"
      Except.ok result
    | Except.error e => do
      let _ ← sub "agent:failed"
      Except.error e

/-- Outcome of the runAudit workflow: success with the composed results,
or the thrown error together with the results field in case the throw
happened after the results had already been attached (a throwing
audit:completed subscriber). -/
inductive AuditOutcome where
  | success (results : Json)
  | failure (e : JsError) (resultsSet : Option Json)
deriving Repr

/-- OrchestratorRuntime.runAudit: planning (direct planner execution),
the parallel analysis fan-out of security, quality and compliance (the
join is modelled left to right; with no failing agent the order cannot
be observed), validation, prioritization, explanation on the top 10,
composition, then the results are attached and audit:completed is
emitted.  All lifecycle emissions are synchronous, so any throwing
subscriber aborts the workflow at its emission point. -/
def runAuditPipeline (agents : AgentTable) (sub : Subscriber) (req : AuditRequest) :
    AuditOutcome :=
  let stages : Except JsError Json := do
    let _ ← sub "audit:progress"
    let plan ← (match agents.lookup "planner-agent" with
      | none => Except.error { code := none, message := "Planner agent not found" }
      | some planner => planner (jobj [("repoPath", Json.str req.repoPath)]))
    let _ ← sub "agent:completed"
    let _ ← sub "audit:progress"
    let securityResults ← runAgent agents sub "security-agent" plan
    let qualityResults ← runAgent agents sub "quality-agent" plan
    let frameworks := ((req.options.bind (fun o => o.frameworks)).getD ["PCI-DSS"])
    let complianceResults ← runAgent agents sub "compliance-agent"
      (jSpread plan [("frameworks", jarr (frameworks.map Json.str))])
    let _ ← sub "audit:progress"
    let validationResults ← runAgent agents sub "validator-agent"
      (jobj [("securityFindings", jGet securityResults "findings"),
             ("qualityFindings", jGet qualityResults "findings")])
    let _ ← sub "audit:progress"
    let prioritizationResults ← runAgent agents sub "prioritizer-agent"
      (jobj [("findings", jGet validationResults "validatedFindings"),
             ("businessContext", jsonOfOptions req.options)])
    let _ ← sub "audit:progress"
    let explainerResults ← runAgent agents sub "explainer-agent"
      (jobj [("findings", jSlice10 (jGet prioritizationResults "prioritizedFindings"))])
    let _ ← sub "audit:progress"
    let uiComposerResults ← runAgent agents sub "ui-composer-agent"
      (jobj [("findings", jGet prioritizationResults "prioritizedFindings"),
             ("explanations", jGet explainerResults "explanations"),
             ("complianceScore", jGet complianceResults "score"),
             ("remediationPlan", jGet prioritizationResults "remediationPlan")])
    Except.ok (jobj
      [("summary", calculateSummary (jElems (jGet prioritizationResults "prioritizedFindings"))),
       ("findings", jGet prioritizationResults "prioritizedFindings"),
       ("complianceScore", jGet complianceResults "score"),
       ("remediationPlan", jGet prioritizationResults "remediationPlan"),
       ("uiSpec", jGet uiComposerResults "uiSpec")])
  match stages with
  | Except.error e => AuditOutcome.failure e none
  | Except.ok results =>
    match sub "audit:completed" with
    | Except.ok _ => AuditOutcome.success results
    | Except.error e => AuditOutcome.failure e (some results)

/-- Final state of the session record once the background pipeline of
startAudit has settled: on success runAudit has marked it completed with
the composed results; on a throw the catch handler of startAudit marks
it failed with the captured message (results stay only when the throw
came after composition). -/
def auditFinalSession (agents : AgentTable) (sub : Subscriber) (req : AuditRequest)
    (sessionId : String) (now tEnd : Int) : AuditSession :=
  match runAuditPipeline agents sub req with
  | AuditOutcome.success results =>
    { id := sessionId, status := SessionStatus.completed, startedAt := now,
      completedAt := some tEnd, results := some results, error := none }
  | AuditOutcome.failure e resultsSet =>
    { id := sessionId, status := SessionStatus.failed, startedAt := now,
      completedAt := some tEnd, results := resultsSet, error := some e.message }

/-- Store of active sessions (OrchestratorRuntime.activeSessions). -/
def SessionStore : Type := List (String × AuditSession)

/-- Session record as startAudit first registers it. -/
def newSession (sessionId : String) (now : Int) : AuditSession :=
  { id := sessionId, status := SessionStatus.planning, startedAt := now,
    completedAt := none, results := none, error := none }

/-- Registration step of OrchestratorRuntime.startAudit: the fresh
planning session is placed in the store (the pipeline then runs in the
background against the same record). -/
def startAuditInsert (store : SessionStore) (sessionId : String) (now : Int) : SessionStore :=
  mapSet store sessionId (newSession sessionId now)

/-- OrchestratorRuntime.getSession: the stored record for the id, or
undefined.  The source hands back the stored object itself, not a copy. -/
def getSession (store : SessionStore) (sessionId : String) : Option AuditSession :=
  store.lookup sessionId

/-- The step-7 mutation of runAudit on the stored session record: status
completed, completion instant, composed results.  The record inside the
store is mutated in place in the source. -/
def completeSession (store : SessionStore) (sessionId : String) (tEnd : Int)
    (results : Json) : SessionStore :=
  match store.lookup sessionId with
  | none => store
  | some s => mapSet store sessionId
      { s with status := SessionStatus.completed, completedAt := some tEnd,
               results := some results }

/-- Observation made through the object that getSession returned earlier,
once the coordinator has moved the store to the state later: the source
returns the live stored record and mutates that same record in place, so
the holder of the earlier return value reads the current entry of the
store, not the value from the time of the call. -/
def observeReturnedSession (later : SessionStore) (sessionId : String) : Option AuditSession :=
  later.lookup sessionId

/-!
Concrete scenario material shared by several verification results: one
registered analysis tool and a canonical invocation request issued by
the security agent, which the access matrix authorizes for that tool.
-/

/-- Demonstration tool definition (shape of the code-analysis server
registration of the backend). -/
def demoTool : MCPToolDefinition :=
  { id := "code-analysis", name := "Code Analysis", endpoint := "http://localhost:8001",
    capabilities := ["sast_scan"], healthCheck := "http://localhost:8001/health",
    authentication := none,
    rateLimits := { requestsPerMinute := 10, maxConcurrentRequests := 5 } }

/-- Registry holding the demonstration tool. -/
def scenarioReg : RegistryState := ((register registry0 demoTool).toOption).getD registry0

/-- Canonical invocation of the demonstration tool by the security agent
inside session sess-1. -/
def demoReq : ToolInvocationRequest :=
  { toolId := "code-analysis", method := "sast_scan", params := jobj [],
    securityContext := { agentId := "security-agent", sessionId := "sess-1" } }

/-- One successful invocation of the demonstration tool, run against a
tracer whose trace for session sess-1 was opened by startAudit. -/
def c1Run : ToolInvocationResult × RegistryState × TracerState :=
  invokeTool scenarioReg (startTrace tracer0 "sess-1") demoReq 100 150 (Except.ok (jobj []))

/-- C1.  For every session, the set of spans recorded for its trace forms
a tree: every non-root span has a parent span that exists in the same
trace, there are no cycles, and there is exactly one root span per
session; every tool invocation produces exactly one tool-kind span whose
parent is the currently active span of the invoking caller.  The code
violates this at the very first tool invocation: invokeTool passes the
session id as parentSpanId (conflating the parent step with the trace
id, against the documented meaning of the TraceEntry fields), so the
single recorded span is a non-root span whose parent id names no span of
the trace, and the trace contains no root span at all. -/
theorem c1_tool_span_parent_missing :
    (getTrace c1Run.2.2 "sess-1").length = 1 ∧
    (getTrace c1Run.2.2 "sess-1").countP (fun e => e.parentSpanId == none) = 0 ∧
    (getTrace c1Run.2.2 "sess-1").all
      (fun e => match e.parentSpanId with
        | some p => (getTrace c1Run.2.2 "sess-1").all (fun e2 => e2.spanId != p)
        | none => false) = true := by
  decide

/-- The recursive filter maps a field list pointwise: each value is
filtered under its own key. -/
lemma filterFields_jfields (fields : List (String × Json)) :
    filterFields (jfields fields) =
      jfields (fields.map (fun kv => (kv.1, filterValue kv.1 kv.2))) := by
  induction fields with
  | nil => rfl
  | cons kv tl ih => cases kv; simp [jfields, filterFields, ih]

/-- Round trip between Lean association lists and JSON field lists. -/
lemma jfields_toList (l : List (String × Json)) : (jfields l).toList = l := by
  induction l with
  | nil => rfl
  | cons kv tl ih => cases kv; simp [jfields, JsonFields.toList, ih]

/-- Response body of the redaction scenario: a sensitive key with a live
secret, and an innocuous key whose string value embeds a high-entropy
40-character token. -/
def c2Response : Json :=
  jobj [("apiKey", Json.str "sk_live_abcdef1234567890"),
        ("note", Json.str "deploy token ABCDEFGHIJKLMNOPQRSTUVWXYZabcdefghijklmn ok")]

/-- The same body after output filtering: the secret keeps only its short
prefix and suffix, and the embedded token is truncated to its first four
characters even though its key is not sensitive. -/
def c2Expected : Json :=
  jobj [("apiKey", Json.str "sk_l...7890"),
        ("note", Json.str "deploy token ABCD...REDACTED ok")]

/-- Successful invocation returning the redaction scenario body. -/
def c2Run : ToolInvocationResult × RegistryState × TracerState :=
  invokeTool scenarioReg (startTrace tracer0 "sess-1") demoReq 100 150 (Except.ok c2Response)

/-- C2.  For every successful tool invocation, output filtering redacts
every string value stored under a sensitive key (the top-level fields of
the filtered body are the pointwise redactions), and concretely: the
apiKey field sk_live_abcdef1234567890 comes back as sk_l...7890, and the
high-entropy 40-character token inside the note field comes back
truncated, under its innocuous key name. -/
theorem c2_output_filtering_redacts :
    c2Run.1.success = true ∧
    c2Run.1.data = some c2Expected ∧
    filterSensitiveData c2Response = c2Expected ∧
    (∀ fields : List (String × Json), ∀ k v : String,
      (k, Json.str v) ∈ fields → isSensitiveKey k = true →
      (k, Json.str (redactPatternsInString (redactSecret v))) ∈
        (filterFields (jfields fields)).toList) := by
  refine ⟨by decide, by decide, by decide, ?_⟩
  intro fields k v hmem hk
  rw [filterFields_jfields, jfields_toList]
  have : (fun kv : String × Json => (kv.1, filterValue kv.1 kv.2)) (k, Json.str v) =
      (k, Json.str (redactPatternsInString (redactSecret v))) := by
    simp [filterValue, hk]
  exact this ▸ List.mem_map_of_mem _ hmem

/-- C2 witness: the pointwise part of the statement discharged at the
concrete apiKey field. -/
theorem c2_output_filtering_redacts_witness :
    ("apiKey", Json.str (redactPatternsInString (redactSecret "sk_live_abcdef1234567890"))) ∈
      (filterFields (jfields [("apiKey", Json.str "sk_live_abcdef1234567890")])).toList :=
  c2_output_filtering_redacts.2.2.2 [("apiKey", Json.str "sk_live_abcdef1234567890")]
    "apiKey" "sk_live_abcdef1234567890" (by decide) (by decide)

/-- C10.  For every field whose key name matches a sensitive name and
whose string value has length at most 8, output filtering replaces the
entire value with the fixed mask, revealing no characters of the
original: the truncation step already collapses the value to the mask,
and the pattern pass leaves the mask unchanged. -/
theorem c10_short_secret_full_mask (fields : List (String × Json)) (k v : String)
    (hmem : (k, Json.str v) ∈ fields) (hk : isSensitiveKey k = true)
    (hlen : v.length ≤ 8) :
    redactSecret v = "***" ∧
    ∃ out : List (String × Json),
      filterSensitiveData (jobj fields) = jobj out ∧ (k, Json.str "***") ∈ out := by
  have hred : redactSecret v = "***" := by simp [redactSecret, hlen]
  refine ⟨hred, fields.map (fun kv => (kv.1, filterValue kv.1 kv.2)), ?_, ?_⟩
  · show Json.obj (filterFields (jfields fields)) = _
    rw [filterFields_jfields]; rfl
  · have hval : (fun kv : String × Json => (kv.1, filterValue kv.1 kv.2)) (k, Json.str v) =
        (k, Json.str "***") := by
      have hpat : redactPatternsInString "***" = "***" := by decide
      simp [filterValue, hk, hred, hpat]
    exact hval ▸ List.mem_map_of_mem _ hmem

/-- C10 witness: a three-character token value is fully masked. -/
theorem c10_short_secret_full_mask_witness :
    redactSecret "abc" = "***" ∧
    ∃ out : List (String × Json),
      filterSensitiveData (jobj [("token", Json.str "abc")]) = jobj out ∧
      ("token", Json.str "***") ∈ out :=
  c10_short_secret_full_mask [("token", Json.str "abc")] "token" "abc"
    (by decide) (by decide) (by decide)

/-- Filtering a constant list keeps everything or nothing, depending on
the predicate at the repeated element. -/
lemma filter_replicate_eq (i : Nat) (a : Int) (p : Int → Bool) :
    (List.replicate i a).filter p = if p a then List.replicate i a else [] := by
  induction i with
  | zero => simp
  | succ n ih =>
    rw [List.replicate_succ, List.filter_cons, ih]
    by_cases h : p a <;> simp [h, List.replicate_succ]

/-- Invariant step of the admission scenario: with i timestamps at
instant 0 already recorded and room for n more, the next n requests at
instant 0 are all admitted and the window grows to i + n timestamps. -/
lemma c3_window_step_aux (W M n : Nat) (key : String) :
    ∀ i : Nat, i + n ≤ W →
    runRequests { config := { requestsPerMinute := W, maxConcurrentRequests := M },
                  requestCounts := [(key, List.replicate i (0 : Int))] } key
        (List.replicate n (0 : Int)) =
      (List.replicate n true,
       { config := { requestsPerMinute := W, maxConcurrentRequests := M },
         requestCounts := [(key, List.replicate (i + n) (0 : Int))] }) := by
  induction n with
  | zero => intro i h; simp [runRequests]
  | succ n ih =>
    intro i h
    have hfil : (List.replicate i (0 : Int)).filter (fun ts => ts > 0 - 60000) =
        List.replicate i 0 := by
      rw [filter_replicate_eq]; norm_num
    have hstep : RateLimitTracker.allowRequest
        { config := { requestsPerMinute := W, maxConcurrentRequests := M },
          requestCounts := [(key, List.replicate i (0 : Int))] } key 0 =
        (true, { config := { requestsPerMinute := W, maxConcurrentRequests := M },
                 requestCounts := [(key, List.replicate (i + 1) (0 : Int))] }) := by
      simp only [RateLimitTracker.allowRequest, List.lookup, beq_self_eq_true, Option.getD_some, hfil]
      rw [if_neg (by simp; omega)]
      simp [mapSet, List.lookup, List.replicate_succ']
    rw [List.replicate_succ]
    simp only [runRequests, hstep]
    rw [ih (i + 1) (by omega)]
    have : i + 1 + n = i + (n + 1) := by omega
    rw [this, List.replicate_succ]

/-- C3.  With a configured limit of W requests per 60000 ms window, the
first W requests of a (tool, session) key inside one window are all
admitted, the (W+1)-th request inside the window is rejected, a request
after the window has aged out is admitted again, and in general a
request is admitted exactly when the pruned count of recorded window
timestamps is strictly below the configured limit. -/
theorem c3_sliding_window_admission (W : Nat) (hW : 1 ≤ W) :
    (runRequests { config := { requestsPerMinute := W, maxConcurrentRequests := 5 },
                   requestCounts := [] } "sess" (List.replicate W (0 : Int))).1 =
      List.replicate W true ∧
    (((runRequests { config := { requestsPerMinute := W, maxConcurrentRequests := 5 },
                     requestCounts := [] } "sess" (List.replicate W (0 : Int))).2).allowRequest
        "sess" 30000).1 = false ∧
    (((((runRequests { config := { requestsPerMinute := W, maxConcurrentRequests := 5 },
                       requestCounts := [] } "sess" (List.replicate W (0 : Int))).2).allowRequest
        "sess" 30000).2).allowRequest "sess" 60001).1 = true ∧
    (∀ t : RateLimitTracker, ∀ key : String, ∀ now : Int,
      (t.allowRequest key now).1 =
        decide ((((t.requestCounts.lookup key).getD []).filter
            (fun ts => ts > now - 60000)).length < t.config.requestsPerMinute)) := by
  obtain ⟨n, rfl⟩ : ∃ n, W = n + 1 := ⟨W - 1, by omega⟩
  have hstep0 : RateLimitTracker.allowRequest
      { config := { requestsPerMinute := n + 1, maxConcurrentRequests := 5 },
        requestCounts := [] } "sess" 0 =
      (true, { config := { requestsPerMinute := n + 1, maxConcurrentRequests := 5 },
               requestCounts := [("sess", List.replicate 1 (0 : Int))] }) := by
    simp [RateLimitTracker.allowRequest, List.lookup, mapSet, List.replicate]
  have hrun : runRequests
      { config := { requestsPerMinute := n + 1, maxConcurrentRequests := 5 },
        requestCounts := [] } "sess" (List.replicate (n + 1) (0 : Int)) =
      (List.replicate (n + 1) true,
       { config := { requestsPerMinute := n + 1, maxConcurrentRequests := 5 },
         requestCounts := [("sess", List.replicate (n + 1) (0 : Int))] }) := by
    rw [List.replicate_succ]
    simp only [runRequests, hstep0]
    rw [c3_window_step_aux (n + 1) 5 n "sess" 1 (by omega)]
    rw [show 1 + n = n + 1 by omega]
    simp [List.replicate_succ]
  have hrej : RateLimitTracker.allowRequest
      { config := { requestsPerMinute := n + 1, maxConcurrentRequests := 5 },
        requestCounts := [("sess", List.replicate (n + 1) (0 : Int))] } "sess" 30000 =
      (false, { config := { requestsPerMinute := n + 1, maxConcurrentRequests := 5 },
                requestCounts := [("sess", List.replicate (n + 1) (0 : Int))] }) := by
    simp only [RateLimitTracker.allowRequest, List.lookup, beq_self_eq_true,
      Option.getD_some]
    rw [filter_replicate_eq]
    norm_num
  refine ⟨by rw [hrun], by rw [hrun, hrej], ?_, ?_⟩
  · rw [hrun, hrej]
    simp only [RateLimitTracker.allowRequest, List.lookup, beq_self_eq_true,
      Option.getD_some]
    rw [filter_replicate_eq]
    norm_num
  · intro t key now
    by_cases h : (((t.requestCounts.lookup key).getD []).filter
        (fun ts => ts > now - 60000)).length ≥ t.config.requestsPerMinute
    · simp [RateLimitTracker.allowRequest, h, Nat.not_lt.mpr h]
    · simp [RateLimitTracker.allowRequest, h, Nat.lt_of_not_le h]

/-- C3 witness: the scenario instantiated at a limit of three requests
per window. -/
theorem c3_sliding_window_admission_witness :
    (runRequests { config := { requestsPerMinute := 3, maxConcurrentRequests := 5 },
                   requestCounts := [] } "sess" (List.replicate 3 (0 : Int))).1 =
      List.replicate 3 true ∧
    (((runRequests { config := { requestsPerMinute := 3, maxConcurrentRequests := 5 },
                     requestCounts := [] } "sess" (List.replicate 3 (0 : Int))).2).allowRequest
        "sess" 30000).1 = false ∧
    (((((runRequests { config := { requestsPerMinute := 3, maxConcurrentRequests := 5 },
                       requestCounts := [] } "sess" (List.replicate 3 (0 : Int))).2).allowRequest
        "sess" 30000).2).allowRequest "sess" 60001).1 = true ∧
    (∀ t : RateLimitTracker, ∀ key : String, ∀ now : Int,
      (t.allowRequest key now).1 =
        decide ((((t.requestCounts.lookup key).getD []).filter
            (fun ts => ts > now - 60000)).length < t.config.requestsPerMinute)) :=
  c3_sliding_window_admission 3 (by decide)

/-- Tool definition with a window limit of one request per minute. -/
def c4Tool : MCPToolDefinition :=
  { demoTool with rateLimits := { requestsPerMinute := 1, maxConcurrentRequests := 5 } }

/-- Registry holding only the one-request-per-minute tool. -/
def c4Reg : RegistryState := ((register registry0 c4Tool).toOption).getD registry0

/-- First invocation of the one-request tool (admitted). -/
def c4Run1 : ToolInvocationResult × RegistryState × TracerState :=
  invokeTool c4Reg (startTrace tracer0 "sess-1") demoReq 100 150 (Except.ok (jobj []))

/-- Second invocation in the same window and session (rejected by the
rate check). -/
def c4Run2 : ToolInvocationResult × RegistryState × TracerState :=
  invokeTool c4Run1.2.1 c4Run1.2.2 demoReq 200 250 (Except.ok (jobj []))

/-- C4.  An invocation rejected by the rate check is claimed to return a
non-success result with error code RateLimited, retryable true and a
backoff hint.  The code converts the rejection into a thrown plain Error
without a code property, so the caught error is reported with the
generic code TOOL_INVOCATION_ERROR and retryable false (isRetryableError
looks only at the absent code property, even though its own table lists
RATE_LIMIT_EXCEEDED as retryable), and the result shape carries no
backoff field at all; the invocation does return a structured non-success
result rather than throwing. -/
theorem c4_rate_limited_error_envelope :
    c4Run1.1.success = true ∧
    c4Run2.1.success = false ∧
    c4Run2.1.error = some { code := "TOOL_INVOCATION_ERROR",
                            message := "Rate limit exceeded for code-analysis",
                            retryable := false } := by
  decide

/-- C6 counterexample.  A definition with a non-empty id and endpoint but
an empty capability set is claimed to be rejected; register accepts it
and stores it, because the JavaScript logical-not of an array never
holds. -/
def emptyCapTool : MCPToolDefinition :=
  { id := "t1", name := "Empty", endpoint := "http://localhost:9999",
    capabilities := [], healthCheck := "http://localhost:9999/health",
    authentication := none,
    rateLimits := { requestsPerMinute := 10, maxConcurrentRequests := 5 } }

/-- C6 counterexample: registering the empty-capability definition
succeeds and the definition is stored, refuting the claimed rejection. -/
theorem c6_empty_capabilities_accepted :
    register registry0 emptyCapTool =
      Except.ok { tools := [("t1", emptyCapTool)],
                  rateLimitTrackers := [("t1", { config := emptyCapTool.rateLimits,
                                                 requestCounts := [] })] } ∧
    (register registry0 emptyCapTool).map (fun st => getTool st "t1") =
      Except.ok (some emptyCapTool) := by
  exact ⟨rfl, rfl⟩

/-- C6 amended.  register throws exactly for a definition whose id or
endpoint is JavaScript-falsy (the empty string); the capabilities check
never fires for an array value, so any capability list — including the
empty one — passes, and the definition is stored under its id with a
fresh rate limit tracker. -/
theorem c6_amended_register_validation (st : RegistryState) (tool : MCPToolDefinition) :
    (tool.id = "" ∨ tool.endpoint = "" →
      register st tool = Except.error { code := none, message := "Invalid tool definition" }) ∧
    (tool.id ≠ "" → tool.endpoint ≠ "" →
      register st tool = Except.ok
        { tools := mapSet st.tools tool.id tool,
          rateLimitTrackers := mapSet st.rateLimitTrackers tool.id
            { config := tool.rateLimits, requestCounts := [] } }) := by
  constructor
  · intro h
    rcases h with h | h <;> simp [register, jsFalsyString, jsFalsyArray, h]
  · intro h1 h2
    simp [register, jsFalsyString, jsFalsyArray, h1, h2]

/-- C6 amended witness: the empty-capability definition is stored. -/
theorem c6_amended_register_validation_witness :
    register registry0 emptyCapTool = Except.ok
      { tools := mapSet registry0.tools emptyCapTool.id emptyCapTool,
        rateLimitTrackers := mapSet registry0.rateLimitTrackers emptyCapTool.id
          { config := emptyCapTool.rateLimits, requestCounts := [] } } :=
  (c6_amended_register_validation registry0 emptyCapTool).2 (by decide) (by decide)

/-- Registered variant of the analysis tool whose declared concurrency
cap is zero. -/
def c8Tool : MCPToolDefinition :=
  { demoTool with rateLimits := { requestsPerMinute := 5, maxConcurrentRequests := 0 } }

/-- Registry holding the zero-cap tool. -/
def c8Reg : RegistryState := ((register registry0 c8Tool).toOption).getD registry0

/-- C8 counterexample.  With a declared cap of zero concurrent requests,
an enforced gate would admit no invocation at all; the rate tracker
admits the request and the invocation succeeds, because nothing in the
pipeline ever reads maxConcurrentRequests. -/
theorem c8_zero_cap_still_admitted :
    (({ config := { requestsPerMinute := 5, maxConcurrentRequests := 0 },
        requestCounts := [] } : RateLimitTracker).allowRequest "sess-1" 100).1 = true ∧
    (invokeTool c8Reg (startTrace tracer0 "sess-1") demoReq 100 150
        (Except.ok (jobj []))).1.success = true := by
  decide

/-- C8 amended.  The declared max-concurrent value is recorded metadata
only: two trackers whose configurations agree on the window limit but
differ arbitrarily in maxConcurrentRequests make identical admission
decisions and record identical windows — no concurrency gate exists in
the pipeline. -/
theorem c8_amended_cap_not_enforced (cfg1 cfg2 : RateLimits)
    (h : cfg1.requestsPerMinute = cfg2.requestsPerMinute)
    (counts : List (String × List Int)) (key : String) (now : Int) :
    (({ config := cfg1, requestCounts := counts } : RateLimitTracker).allowRequest key now).1 =
      (({ config := cfg2, requestCounts := counts } : RateLimitTracker).allowRequest key now).1 ∧
    ((({ config := cfg1, requestCounts := counts } : RateLimitTracker).allowRequest
        key now).2).requestCounts =
      ((({ config := cfg2, requestCounts := counts } : RateLimitTracker).allowRequest
        key now).2).requestCounts := by
  simp only [RateLimitTracker.allowRequest, h]
  split <;> simp

/-- C8 amended witness: caps 0 and 1000 are indistinguishable to the
admission decision. -/
theorem c8_amended_cap_not_enforced_witness :
    (({ config := { requestsPerMinute := 5, maxConcurrentRequests := 0 },
        requestCounts := [] } : RateLimitTracker).allowRequest "sess-1" 100).1 =
      (({ config := { requestsPerMinute := 5, maxConcurrentRequests := 1000 },
          requestCounts := [] } : RateLimitTracker).allowRequest "sess-1" 100).1 ∧
    ((({ config := { requestsPerMinute := 5, maxConcurrentRequests := 0 },
         requestCounts := [] } : RateLimitTracker).allowRequest "sess-1" 100).2).requestCounts =
      ((({ config := { requestsPerMinute := 5, maxConcurrentRequests := 1000 },
           requestCounts := [] } : RateLimitTracker).allowRequest "sess-1" 100).2).requestCounts :=
  c8_amended_cap_not_enforced
    { requestsPerMinute := 5, maxConcurrentRequests := 0 }
    { requestsPerMinute := 5, maxConcurrentRequests := 1000 } rfl [] "sess-1" 100

/-- Shape of an admitted allowRequest call: the pruned window with the
current instant appended is stored for the key. -/
lemma allowRequest_granted_eq (t : RateLimitTracker) (key : String) (now : Int)
    (h : (t.allowRequest key now).1 = true) :
    t.allowRequest key now =
      (true,
       { t with
         requestCounts :=
           mapSet t.requestCounts key
             ((((t.requestCounts.lookup key).getD []).filter
                 (fun ts => ts > now - 60000)) ++ [now]) }) := by
  by_cases hc : (((t.requestCounts.lookup key).getD []).filter
      (fun ts => ts > now - 60000)).length ≥ t.config.requestsPerMinute
  · simp [RateLimitTracker.allowRequest, hc] at h
  · simp [RateLimitTracker.allowRequest, hc]

/-- C9.  An invocation that passes lookup, policy and rate checks records
its timestamp in the (tool, session) window before the external call, so
the recorded window after the invocation is the pruned window plus the
current instant whatever the external call returns — in particular a
failing external call still counts; conversely an invocation rejected at
lookup or at the policy check leaves the registry state (hence every
window) untouched. -/
theorem c9_rate_window_frame_effect (reg : RegistryState) (tr : TracerState)
    (req : ToolInvocationRequest) (now tEnd : Int) (outcome : Except JsError Json) :
    (∀ tool : MCPToolDefinition, ∀ tracker : RateLimitTracker,
      getTool reg req.toolId = some tool →
      (reg.rateLimitTrackers.lookup req.toolId).getD
          { config := tool.rateLimits, requestCounts := [] } = tracker →
      validateAgentAccess req.securityContext.agentId req.toolId = true →
      (tracker.allowRequest req.securityContext.sessionId now).1 = true →
      (invokeTool reg tr req now tEnd outcome).2.1.rateLimitTrackers =
        mapSet reg.rateLimitTrackers req.toolId
          { tracker with
            requestCounts :=
              mapSet tracker.requestCounts req.securityContext.sessionId
                ((((tracker.requestCounts.lookup req.securityContext.sessionId).getD []).filter
                    (fun ts => ts > now - 60000)) ++ [now]) }) ∧
    (getTool reg req.toolId = none →
      (invokeTool reg tr req now tEnd outcome).2.1 = reg) ∧
    (∀ tool : MCPToolDefinition, getTool reg req.toolId = some tool →
      validateAgentAccess req.securityContext.agentId req.toolId = false →
      (invokeTool reg tr req now tEnd outcome).2.1 = reg) := by
  refine ⟨?_, ?_, ?_⟩
  · intro tool tracker hTool hTr hAuth hRate
    rcases hs : sanitizeToolInput req.params with e | p <;>
      rcases outcome with e2 | r <;>
        simp [invokeTool, hTool, hTr, hAuth, allowRequest_granted_eq _ _ _ hRate, hs]
  · intro h
    simp [invokeTool, h]
  · intro tool hTool hAuth
    simp [invokeTool, hTool, hAuth]

/-- C9 witness: the security agent invokes the registered tool, the
external call fails with a connection error, and the window for
(code-analysis, sess-1) still records the invocation instant. -/
theorem c9_rate_window_frame_effect_witness :
    (invokeTool scenarioReg tracer0 demoReq 100 150
        (Except.error { code := some "ECONNREFUSED",
                        message := "connect ECONNREFUSED" })).2.1.rateLimitTrackers =
      mapSet scenarioReg.rateLimitTrackers "code-analysis"
        { config := { requestsPerMinute := 10, maxConcurrentRequests := 5 },
          requestCounts := mapSet [] "sess-1" (([] : List Int).filter
            (fun ts => ts > 100 - 60000) ++ [100]) } :=
  (c9_rate_window_frame_effect scenarioReg tracer0 demoReq 100 150
      (Except.error { code := some "ECONNREFUSED", message := "connect ECONNREFUSED" })).1
    demoTool
    { config := { requestsPerMinute := 10, maxConcurrentRequests := 5 }, requestCounts := [] }
    (by decide) (by decide) (by decide) (by decide)

/-- Demonstration agent table: each pipeline agent resolves with a result
of the shape the next stage reads. -/
def demoAgents : AgentTable :=
  [("planner-agent", fun _ => Except.ok (jobj [("files_to_scan", jarr [])])),
   ("security-agent", fun _ => Except.ok (jobj [("findings", jarr [])])),
   ("quality-agent", fun _ => Except.ok (jobj [("findings", jarr [])])),
   ("compliance-agent", fun _ => Except.ok (jobj [("score", Json.num 95)])),
   ("validator-agent", fun _ => Except.ok (jobj [("validatedFindings", jarr [])])),
   ("prioritizer-agent", fun _ => Except.ok
     (jobj [("prioritizedFindings", jarr [jobj [("severity", Json.str "high")]]),
            ("remediationPlan", jobj [])])),
   ("explainer-agent", fun _ => Except.ok (jobj [("explanations", jarr [])])),
   ("ui-composer-agent", fun _ => Except.ok (jobj [("uiSpec", jobj [])]))]

/-- Subscriber that handles every lifecycle event without throwing. -/
def okSub : Subscriber := fun _ => Except.ok ()

/-- Subscriber that throws on the first progress event it receives. -/
def boomSub : Subscriber := fun ev =>
  if ev = "audit:progress" then Except.error { code := none, message := "subscriber boom" }
  else Except.ok ()

/-- Demonstration audit request. -/
def demoRequest : AuditRequest := { repoPath := "/repo", userId := none, options := none }

/-- C5 counterexample.  The claim says a throwing subscriber never fails
the pipeline and the session reaches the same final status and result as
with a well-behaved subscriber.  With the same agents, the well-behaved
subscriber run completes, while the run with a subscriber that throws on
a progress event ends failed, carrying the subscriber message as the
session error — the synchronous EventEmitter emission propagates the
subscriber exception into the workflow. -/
theorem c5_throwing_subscriber_changes_outcome :
    (auditFinalSession demoAgents okSub demoRequest "s1" 0 9).status =
      SessionStatus.completed ∧
    (auditFinalSession demoAgents boomSub demoRequest "s1" 0 9).status =
      SessionStatus.failed ∧
    (auditFinalSession demoAgents boomSub demoRequest "s1" 0 9).error =
      some "subscriber boom" ∧
    (auditFinalSession demoAgents boomSub demoRequest "s1" 0 9).results = none := by
  exact ⟨rfl, rfl, rfl, rfl⟩

/-- C5 amended.  Lifecycle emission is the synchronous EventEmitter call,
so a throwing subscriber propagates into the pipeline: for any message
the subscriber throws on a progress event, the session ends failed with
that message and no results, while the identical run with a well-behaved
subscriber completes with a results payload (slowness of a subscriber is
a timing property outside this model). -/
theorem c5_amended_throwing_subscriber_fails_pipeline (m : String) :
    (auditFinalSession demoAgents
        (fun ev => if ev = "audit:progress"
          then Except.error { code := none, message := m } else Except.ok ())
        demoRequest "s1" 0 9).status = SessionStatus.failed ∧
    (auditFinalSession demoAgents
        (fun ev => if ev = "audit:progress"
          then Except.error { code := none, message := m } else Except.ok ())
        demoRequest "s1" 0 9).error = some m ∧
    (auditFinalSession demoAgents okSub demoRequest "s1" 0 9).status =
      SessionStatus.completed ∧
    (auditFinalSession demoAgents okSub demoRequest "s1" 0 9).results.isSome = true := by
  refine ⟨rfl, rfl, rfl, rfl⟩

/-- C5 amended witness: instantiated at a concrete subscriber message. -/
theorem c5_amended_throwing_subscriber_fails_pipeline_witness :
    (auditFinalSession demoAgents
        (fun ev => if ev = "audit:progress"
          then Except.error { code := none, message := "boom" } else Except.ok ())
        demoRequest "s1" 0 9).status = SessionStatus.failed ∧
    (auditFinalSession demoAgents
        (fun ev => if ev = "audit:progress"
          then Except.error { code := none, message := "boom" } else Except.ok ())
        demoRequest "s1" 0 9).error = some "boom" ∧
    (auditFinalSession demoAgents okSub demoRequest "s1" 0 9).status =
      SessionStatus.completed ∧
    (auditFinalSession demoAgents okSub demoRequest "s1" 0 9).results.isSome = true :=
  c5_amended_throwing_subscriber_fails_pipeline "boom"

/-- Map.set followed by a lookup of the same key reads the stored value. -/
lemma lookup_mapSet_self {α : Type} (m : List (String × α)) (k : String) (v : α) :
    (mapSet m k v).lookup k = some v := by
  unfold mapSet
  by_cases h : (m.lookup k).isSome
  · rw [if_pos h]
    induction m with
    | nil => simp [List.lookup] at h
    | cons kv tl ih =>
      rcases kv with ⟨k1, v1⟩
      by_cases hk : k1 = k
      · subst hk
        rw [List.map_cons, if_pos (show (k1 == k1) = true by simp)]
        simp [List.lookup]
      · have hne : (k == k1) = false := beq_eq_false_iff_ne.mpr (fun hc => hk hc.symm)
        have hne1 : ¬((k1 == k) = true) := fun hc => hk (by simpa using hc)
        rw [List.map_cons, if_neg hne1]
        simp only [List.lookup, hne] at h ⊢
        exact ih h
  · rw [if_neg h]
    induction m with
    | nil => simp [List.lookup]
    | cons kv tl ih =>
      rcases kv with ⟨k1, v1⟩
      have hne : (k == k1) = false := by
        by_contra hc
        rw [Bool.not_eq_false] at hc
        simp [List.lookup, hc] at h
      simp only [List.cons_append, List.lookup, hne] at h ⊢
      exact ih h

/-- Session store holding the single freshly created session s1. -/
def c7Store0 : SessionStore := startAuditInsert [] "s1" 0

/-- The same store after the coordinator has completed the session. -/
def c7Store1 : SessionStore := completeSession c7Store0 "s1" 5 (jobj [])

/-- C7 counterexample.  The claim says getSession returns an immutable
snapshot copy, so a transition performed after the call must not change
the value previously returned.  The source returns the stored record
itself and runAudit mutates that record in place, so the holder of the
earlier return value observes the completed session, not the planning
snapshot taken at call time. -/
theorem c7_snapshot_not_immutable :
    observeReturnedSession c7Store1 "s1" ≠ getSession c7Store0 "s1" ∧
    (getSession c7Store0 "s1").map (fun s => s.status) = some SessionStatus.planning ∧
    (observeReturnedSession c7Store1 "s1").map (fun s => s.status) =
      some SessionStatus.completed := by
  refine ⟨by decide, rfl, rfl⟩

/-- C7 amended.  getSession hands back the live stored record: a known id
yields the current record and a later completion transition is visible
through the handle returned earlier, while an unknown id yields the
not-found signal. -/
theorem c7_amended_live_session_handle (store : SessionStore) (sid sid2 : String)
    (s : AuditSession) (t : Int) (r : Json)
    (h : store.lookup sid = some s) (h2 : store.lookup sid2 = none) :
    getSession store sid = some s ∧
    getSession store sid2 = none ∧
    observeReturnedSession (completeSession store sid t r) sid =
      some { s with status := SessionStatus.completed, completedAt := some t,
                    results := some r } := by
  refine ⟨h, h2, ?_⟩
  unfold observeReturnedSession completeSession
  rw [h]
  exact lookup_mapSet_self store sid _

/-- C7 amended witness: discharged on the concrete one-session store. -/
theorem c7_amended_live_session_handle_witness :
    getSession c7Store0 "s1" = some (newSession "s1" 0) ∧
    getSession c7Store0 "missing" = none ∧
    observeReturnedSession (completeSession c7Store0 "s1" 5 (jobj [])) "s1" =
      some { newSession "s1" 0 with
             status := SessionStatus.completed,
             completedAt := some 5,
             results := some (jobj []) } :=
  c7_amended_live_session_handle c7Store0 "s1" "missing" (newSession "s1" 0) 5 (jobj [])
    (by decide) (by decide)
